import Mathlib

/-!
Shallow embedding of `pylons/templating.py` (the legacy Buffet templating
layer of the Pylons web framework) and proofs about its behaviour.

Python dictionaries are embedded as association lists with unique keys
(`PyDict`); Python values that flow through the module (namespace entries,
keyword options, cache directives) are embedded as `PyVal`.  Stateful and
effectful steps (calling an engine's `render`, calling the Beaker cache's
`get_value`, invoking a render callback) are recorded in an explicit event
trace, and Python exceptions are explicit `Except`/`Option` results.
-/

/-- Embedding of the Python values this module manipulates: `None`,
strings, booleans, integers and (for Myghty's `_global_args`) dicts. -/
inductive PyVal : Type where
  | none : PyVal
  | str : String → PyVal
  | bool : Bool → PyVal
  | int : Int → PyVal
  | dict : List (String × PyVal) → PyVal

/-- A Python dict over string keys: an association list, unique keys
expected (Python dicts cannot hold duplicate keys). -/
abbrev PyDict (α : Type) : Type := List (String × α)

/-- Python `d.get(k)` / `d[k]`: first binding of `k`, if any. -/
def PyDict.get? {α : Type} : PyDict α → String → Option α
  | [], _ => Option.none
  | (k', v) :: rest, k => if k' = k then some v else PyDict.get? rest k

/-- Python `d[k] = v`: replace the binding of `k` in place, or append. -/
def PyDict.set {α : Type} : PyDict α → String → α → PyDict α
  | [], k, v => [(k, v)]
  | (k', v') :: rest, k, v =>
    if k' = k then (k, v) :: rest else (k', v') :: PyDict.set rest k v

/-- Python `del d[k]` / the removal half of `d.pop(k)`. -/
def PyDict.erase {α : Type} : PyDict α → String → PyDict α
  | [], _ => []
  | (k', v) :: rest, k =>
    if k' = k then PyDict.erase rest k else (k', v) :: PyDict.erase rest k

/-- Python `d.update(e)`: set every binding of `e` into `d`, in order. -/
def PyDict.update {α : Type} (d e : PyDict α) : PyDict α :=
  e.foldl (fun acc kv => PyDict.set acc kv.1 kv.2) d

/-- The keys of a dict are pairwise distinct (true of every real Python
dict; stated explicitly because the embedding is an association list). -/
def PyDict.NodupKeys {α : Type} (d : PyDict α) : Prop :=
  (d.map Prod.fst).Nodup

instance {α : Type} (d : PyDict α) : Decidable (PyDict.NodupKeys d) := by
  unfold PyDict.NodupKeys; infer_instance

/-- Python truthiness for `PyVal`. -/
def pyTruthy : PyVal → Bool
  | .none => false
  | .str s => !(s = "" : Bool)
  | .bool b => b
  | .int n => !(n = 0 : Bool)
  | .dict d => !d.isEmpty

/-- `v is None`. -/
def pyIsNone : PyVal → Bool
  | .none => true
  | _ => false

/-- `v == 'never'`. -/
def pyIsNeverStr : PyVal → Bool
  | .str s => (s = "never" : Bool)
  | _ => false

mutual
/-- Python `repr`, needed for `str` of a dict. -/
def pyRepr : PyVal → String
  | .none => "None"
  | .str s => "'" ++ s ++ "'"
  | .bool b => if b then "True" else "False"
  | .int n => toString n
  | .dict d => "\x7b" ++ pyReprEntries d ++ "\x7d"

/-- `repr` of the entries of a dict, comma separated. -/
def pyReprEntries : List (String × PyVal) → String
  | [] => ""
  | [(k, v)] => "'" ++ k ++ "': " ++ pyRepr v
  | (k, v) :: kv :: rest =>
    "'" ++ k ++ "': " ++ pyRepr v ++ ", " ++ pyReprEntries (kv :: rest)
end

/-- Python `str()` on the values the module stringifies. -/
def pyStr : PyVal → String
  | .none => "None"
  | .str s => s
  | .bool b => if b then "True" else "False"
  | .int n => toString n
  | .dict d => pyRepr (.dict d)

theorem PyDict.get?_set_self {α : Type} (d : PyDict α) (k : String) (v : α) :
    PyDict.get? (PyDict.set d k v) k = some v := by
  induction d with
  | nil => simp [PyDict.set, PyDict.get?]
  | cons kv rest ih =>
    by_cases h : kv.1 = k
    · simp [PyDict.set, PyDict.get?, h]
    · simpa [PyDict.set, PyDict.get?, h] using ih

theorem PyDict.get?_set_ne {α : Type} (d : PyDict α) (k k' : String) (v : α)
    (h : k' ≠ k) : PyDict.get? (PyDict.set d k v) k' = PyDict.get? d k' := by
  have hkk : ¬ k = k' := fun e => h e.symm
  induction d with
  | nil => simp [PyDict.set, PyDict.get?, hkk]
  | cons kv rest ih =>
    by_cases hk : kv.1 = k
    · subst hk
      simp [PyDict.set, PyDict.get?, hkk]
    · simp only [PyDict.set, hk, if_false, PyDict.get?]
      by_cases hk' : kv.1 = k'
      · simp [hk']
      · simp [hk', ih]

theorem PyDict.get?_erase_self {α : Type} (d : PyDict α) (k : String) :
    PyDict.get? (PyDict.erase d k) k = Option.none := by
  induction d with
  | nil => simp [PyDict.erase, PyDict.get?]
  | cons kv rest ih =>
    by_cases h : kv.1 = k
    · simpa [PyDict.erase, h] using ih
    · simpa [PyDict.erase, h, PyDict.get?] using ih

theorem PyDict.get?_erase_ne {α : Type} (d : PyDict α) (k k' : String)
    (h : k' ≠ k) : PyDict.get? (PyDict.erase d k) k' = PyDict.get? d k' := by
  induction d with
  | nil => simp [PyDict.erase, PyDict.get?]
  | cons kv rest ih =>
    by_cases hk : kv.1 = k
    · subst hk
      have hne : ¬ kv.1 = k' := fun e => h e.symm
      simpa [PyDict.erase, PyDict.get?, hne] using ih
    · simp only [PyDict.erase, hk, if_false, PyDict.get?]
      by_cases hk' : kv.1 = k'
      · simp [hk']
      · simp [hk', ih]

theorem PyDict.get?_eq_none_of_not_mem_keys {α : Type} (d : PyDict α)
    (k : String) (h : k ∉ d.map Prod.fst) : PyDict.get? d k = Option.none := by
  induction d with
  | nil => simp [PyDict.get?]
  | cons kv rest ih =>
    simp only [List.map_cons, List.mem_cons] at h
    push_neg at h
    have hne : ¬ kv.1 = k := fun e => h.1 e.symm
    simp [PyDict.get?, hne, ih h.2]

/-- Updating with a dict that does not bind `k` leaves `k`'s binding. -/
theorem PyDict.get?_update_of_get?_eq_none {α : Type} (e : PyDict α) :
    ∀ (d : PyDict α) (k : String), PyDict.get? e k = Option.none →
      PyDict.get? (PyDict.update d e) k = PyDict.get? d k := by
  induction e with
  | nil => intro d k _; simp [PyDict.update]
  | cons kv rest ih =>
    intro d k hk
    simp only [PyDict.get?] at hk
    by_cases hkv : kv.1 = k
    · simp [hkv] at hk
    · simp only [hkv, if_false] at hk
      have hstep : PyDict.update d (kv :: rest) =
          PyDict.update (PyDict.set d kv.1 kv.2) rest := by
        simp [PyDict.update]
      rw [hstep, ih _ k hk, PyDict.get?_set_ne d kv.1 k kv.2 (fun e' => hkv e'.symm)]

/-- A binding of the explicit dict `e` survives `d.update(e)`. -/
theorem PyDict.get?_update_of_get?_eq_some {α : Type} (e : PyDict α) :
    ∀ (d : PyDict α) (k : String) (v : α), PyDict.NodupKeys e →
      PyDict.get? e k = some v →
      PyDict.get? (PyDict.update d e) k = some v := by
  induction e with
  | nil => intro d k v _ h; simp [PyDict.get?] at h
  | cons kv rest ih =>
    intro d k v he hk
    have he' : (kv.1 :: rest.map Prod.fst).Nodup := by
      simpa [PyDict.NodupKeys] using he
    have hstep : PyDict.update d (kv :: rest) =
        PyDict.update (PyDict.set d kv.1 kv.2) rest := by
      simp [PyDict.update]
    simp only [PyDict.get?] at hk
    by_cases hkv : kv.1 = k
    · subst hkv
      have hv : kv.2 = v := by simpa using hk
      subst hv
      have hmem : kv.1 ∉ rest.map Prod.fst := (List.nodup_cons.mp he').1
      have hrest : PyDict.get? rest kv.1 = Option.none :=
        PyDict.get?_eq_none_of_not_mem_keys rest kv.1 hmem
      rw [hstep, PyDict.get?_update_of_get?_eq_none rest _ kv.1 hrest,
        PyDict.get?_set_self]
    · simp only [hkv, if_false] at hk
      have hnd : PyDict.NodupKeys rest := by
        have := (List.nodup_cons.mp he').2
        simpa [PyDict.NodupKeys] using this
      rw [hstep, ih _ k v hnd hk]

/-- The Python exceptions raised by `pylons.templating`. -/
inductive PyExc : Type where
  | templateEngineMissing (msg : String)
  | buffetError (msg : String)
  | exception (msg : String)
  | keyError (msg : String)
  | typeError (msg : String)

/-- Observable effects of a render call: invoking a render callback,
invoking a prepared engine's `render`, and calling the Beaker cache's
`get_value` (recorded with the arguments the code passes). -/
inductive Event : Type where
  | renderFuncCall
  | engineRender (ns : PyDict PyVal) (template : String) (options : PyDict PyVal)
  | cacheGetValue (ns : String) (key ctype expiretime : PyVal)

/-- `cached_template` (templating.py lines 196-251).  `render_func` is a
zero-argument callback; its output is the parameter `renderResult` and
each invocation is recorded as a `renderFuncCall` event.  `cacheStore`
is the external Beaker cache's current contents, consulted by
`get_value`: a hit returns the stored string, a miss runs the callback. -/
def cached_template (cacheStore : String → PyVal → Option String)
    (template_name : String) (renderResult : String) (ns_options : List String)
    (cache_key cache_type cache_expire : PyVal) (kwargs : PyDict PyVal) :
    List Event × String :=
  if !(pyIsNone cache_key) || !(pyIsNone cache_expire) || !(pyIsNone cache_type) then
    let ct := if !(pyTruthy cache_type) then PyVal.str "dbm" else cache_type
    let ck := if !(pyTruthy cache_key) then PyVal.str "default" else cache_key
    let ce := if pyIsNeverStr cache_expire then PyVal.none else cache_expire
    let nsv := ns_options.foldl
      (fun acc nm => acc ++ pyStr ((PyDict.get? kwargs nm).getD PyVal.none))
      template_name
    match cacheStore nsv ck with
    | some cached => ([.cacheGetValue nsv ck ct ce], cached)
    | Option.none => ([.cacheGetValue nsv ck ct ce, .renderFuncCall], renderResult)
  else
    ([.renderFuncCall], renderResult)

/-- A configured template engine instance: its `render` method (an
oracle producing the rendered string from namespace, template and
options) and, for the Myghty engine, the keys of
`interpreter.global_args` plus `init_params['allow_globals']`. -/
structure EngineInst : Type where
  render : PyDict PyVal → String → PyDict PyVal → String
  globalArgKeys : List String

/-- An entry of the process-wide `available_engines` registry: the
engine class, called as `Engine(extra_vars_func=..., options=config)`. -/
abbrev Factory : Type := PyVal → PyDict PyVal → EngineInst

/-- A prepared engine: `self.engines[name] = dict(engine=..., root=...)`. -/
structure PreparedEntry : Type where
  engine : EngineInst
  root : Option String

/-- The `Buffet` facade's state. -/
structure Buffet : Type where
  default_engine : Option String
  template_root : Option String
  default_options : PyDict PyVal
  engines : PyDict PreparedEntry

/-- `Buffet.prepare` (lines 328-348), in state-passing style: a raise
returns the untouched facade alongside the exception. -/
def Buffet.prepare (avail : PyDict Factory) (b : Buffet) (engine_name : String)
    (template_root : Option String) (aliasArg : Option String)
    (config : PyDict PyVal) : Buffet × Option PyExc :=
  match PyDict.get? avail engine_name with
  | Option.none =>
    (b, some (.templateEngineMissing
      ("Please install a plugin for \"" ++ engine_name ++ "\" to use its functionality")))
  | some F =>
    let nm := match aliasArg with
      | some a => if a = "" then engine_name else a
      | Option.none => engine_name
    let evKey := nm ++ ".extra_vars_func"
    let extra_vars_func := (PyDict.get? config evKey).getD PyVal.none
    let config2 := PyDict.erase config evKey
    ({ b with engines := PyDict.set b.engines nm ⟨F extra_vars_func config2, template_root⟩ },
     Option.none)

/-- Truthiness of an optional string (Python `None` and `''` are falsy). -/
def strOptTruthy : Option String → Bool
  | Option.none => false
  | some s => !(s = "" : Bool)

/-- `'%s' % engine_name` for an optional string. -/
def optName : Option String → String
  | Option.none => "None"
  | some s => s

/-- `if not engine_name and self.default_engine: engine_name = self.default_engine`. -/
def resolveEngineName (b : Buffet) (engine_name : Option String) : Option String :=
  if !(strOptTruthy engine_name) && strOptTruthy b.default_engine then
    b.default_engine
  else engine_name

/-- Is the first list a prefix of the second? -/
def charListStarts : List Char → List Char → Bool
  | [], _ => true
  | _ :: _, [] => false
  | c :: cs, d :: ds => (c = d : Bool) && charListStarts cs ds

/-- `s.startswith(p)`, computed on the character lists. -/
def strStartsWith (s p : String) : Bool := charListStarts p.data s.data

/-- `s.endswith(p)`, computed on the character lists. -/
def strEndsWith (s p : String) : Bool := charListStarts p.data.reverse s.data.reverse

/-- `s.replace(c, r)` for a one-character pattern and replacement (the
module only replaces the one-character `os.path.sep` with `'.'`). -/
def replaceChar (s : String) (c r : Char) : String :=
  String.mk (s.data.map (fun x => if x = c then r else x))

/-- POSIX `os.path.join` on two components. -/
def ospathJoin (a b : String) : String :=
  if strStartsWith b "/" then b
  else if a = "" || strEndsWith a "/" then a ++ b
  else a ++ "/" ++ b

/-- `s.lstrip('.')`. -/
def lstripDot (s : String) : String :=
  String.mk (s.data.dropWhile (fun c => c = '.'))

/-- The full-path computation of the non-Myghty branch (lines 435-440). -/
def buffetFullPath (engine_name template_name : String) (root : Option String) :
    String :=
  if !(strStartsWith template_name "/") && !(strStartsWith engine_name "pylons")
      && !(strStartsWith engine_name "mako") then
    match root with
    | some r => lstripDot (replaceChar (ospathJoin r template_name) '/' '.')
    | Option.none => template_name
  else template_name

/-- The reserved Myghty keywords of lines 406-407. -/
def myghtyReserved : List String := ["output_encoding", "encoding_errors", "disable_unicode"]

/-- Lines 406-409: for each reserved key present in the namespace, move
it (`options[key] = namespace.pop(key)`) into the options. -/
def movePairs (keys : List String) (ns opts : PyDict PyVal) :
    PyDict PyVal × PyDict PyVal :=
  keys.foldl
    (fun p key =>
      match PyDict.get? p.1 key with
      | some v => (PyDict.erase p.1 key, PyDict.set p.2 key v)
      | Option.none => p)
    (ns, opts)

/-- Lines 417-422: every namespace key that collides with an interpreter
global is moved into the `_global_args` sub-dict
(`namespace['_global_args'][key] = namespace.pop(key)`); the item
assignment raises if `_global_args` is itself gone or not a dict. -/
def moveGlobals : List String → PyDict PyVal → Except PyExc (PyDict PyVal)
  | [], ns => Except.ok ns
  | key :: rest, ns =>
    match PyDict.get? ns key with
    | some v =>
      let ns1 := PyDict.erase ns key
      match PyDict.get? ns1 "_global_args" with
      | some (.dict g) =>
        moveGlobals rest (PyDict.set ns1 "_global_args" (.dict (PyDict.set g key v)))
      | some _ => Except.error (.typeError "'_global_args' does not support item assignment")
      | Option.none => Except.error (.keyError "_global_args")
    | Option.none => moveGlobals rest ns

/-- Lines 442-444: `if 'format' in options and options['format'] is None:
del options['format']`. -/
def formatDel (options : PyDict PyVal) : PyDict PyVal :=
  match PyDict.get? options "format" with
  | some PyVal.none => PyDict.erase options "format"
  | _ => options

/-- The namespace/options/full-path computation of `Buffet.render`
(lines 400-440): the `pylonsmyghty` special case and the general branch
with its namespace-resolution rules and full-path rewriting. -/
def buffetNamespaceOptions (engine_name : String) (cfg : PreparedEntry)
    (globs : PyDict PyVal) (template_name : String)
    (include_pylons_variables : Bool) (nspace : Option (PyDict PyVal))
    (options : PyDict PyVal) :
    Except PyExc (PyDict PyVal × PyDict PyVal × String) :=
  if engine_name = "pylonsmyghty" then
    let ns0 := nspace.getD []
    let p := movePairs myghtyReserved ns0 options
    let ns2 := PyDict.set p.1 "_global_args"
      (.dict (if include_pylons_variables then globs else []))
    match moveGlobals cfg.engine.globalArgKeys ns2 with
    | .error e => .error e
    | .ok ns3 => .ok (ns3, p.2, template_name)
  else
    match nspace with
    | Option.none =>
      if include_pylons_variables then
        .ok (globs, options, buffetFullPath engine_name template_name cfg.root)
      else
        .error (.buffetError
          "You must specify ``namespace`` when ``include_pylons_variables`` is False")
    | some ns0 =>
      let ns := if include_pylons_variables then PyDict.update globs ns0 else ns0
      .ok (ns, options, buffetFullPath engine_name template_name cfg.root)

/-- `Buffet.render` (lines 350-473).  `globs` is the Context Snapshot the
ambient `pylons_globals()` would return; `cacheStore` is the external
Beaker cache's current contents.  The event trace records every engine
invocation and cache access in execution order. -/
def Buffet.render (b : Buffet) (globs : PyDict PyVal)
    (cacheStore : String → PyVal → Option String)
    (engine_name : Option String) (template_name : String)
    (include_pylons_variables : Bool) (nspace : Option (PyDict PyVal))
    (cache_key cache_expire cache_type : PyVal) (options : PyDict PyVal) :
    List Event × Except PyExc String :=
  match resolveEngineName b engine_name with
  | Option.none => ([], .error (.exception "No engine with that name configured: None"))
  | some n =>
    match PyDict.get? b.engines n with
    | Option.none => ([], .error (.exception ("No engine with that name configured: " ++ n)))
    | some cfg =>
      match buffetNamespaceOptions n cfg globs template_name
          include_pylons_variables nspace options with
      | .error e => ([], .error e)
      | .ok (ns, opts0, full_path) =>
        let opts := formatDel opts0
        if !(pyIsNone cache_key) || !(pyIsNone cache_expire) || !(pyIsNone cache_type) then
          let ct := if !(pyTruthy cache_type) then PyVal.str "dbm" else cache_type
          let ck := if !(pyTruthy cache_key) then PyVal.str "default" else cache_key
          let ce := if pyIsNeverStr cache_expire then PyVal.none else cache_expire
          let tfile1 := match PyDict.get? opts "fragment" with
            | some v => if pyTruthy v then full_path ++ "_frag" else full_path
            | Option.none => full_path
          let tfile := match PyDict.get? opts "format" with
            | some v => if pyTruthy v then tfile1 ++ pyStr v else tfile1
            | Option.none => tfile1
          match cacheStore tfile ck with
          | some cached => ([.cacheGetValue tfile ck ct ce], .ok cached)
          | Option.none =>
            ([.cacheGetValue tfile ck ct ce, .engineRender ns full_path opts],
             .ok (cfg.engine.render ns full_path opts))
        else
          ([.engineRender ns full_path opts], .ok (cfg.engine.render ns full_path opts))

/-- Observable effects of `render_response`: the deprecation warning,
assigning `response.content`, setting the Content-Type header and the
response's `encoding_errors` attribute. -/
inductive RREvent : Type where
  | warnDeprecation
  | setContent (content : String)
  | setContentTypeHeader (value : String)
  | setEncodingErrors (value : PyVal)

/-- `render_response` (lines 590-613).  The inner `render(*args, **kargs)`
call is external to this function; `renderOutcome` is its outcome, and
`kargs` the keyword arguments it was given.  The deprecation warning is
line 602, before the render is attempted. -/
def render_response (renderOutcome : Except PyExc String) (kargs : PyDict PyVal)
    (default_content_type : String) : List RREvent × Except PyExc String :=
  match renderOutcome with
  | .error e => ([.warnDeprecation], .error e)
  | .ok content =>
    let output_encoding := (PyDict.get? kargs "output_encoding").getD PyVal.none
    let encoding_errors := (PyDict.get? kargs "encoding_errors").getD PyVal.none
    (RREvent.warnDeprecation :: RREvent.setContent content ::
      ((if pyTruthy output_encoding then
          [RREvent.setContentTypeHeader
            (default_content_type ++ "; charset=" ++ pyStr output_encoding)]
        else []) ++
       (if pyTruthy encoding_errors then
          [RREvent.setEncodingErrors encoding_errors]
        else [])),
     .ok "")

/-- Concatenation, in order, of `g` over a list of names (the spec-side
reading of the cache-namespace construction). -/
def strConcatMap (l : List String) (g : String → String) : String :=
  match l with
  | [] => ""
  | x :: xs => g x ++ strConcatMap xs g

theorem pyIsNone_eq_true_iff (v : PyVal) : pyIsNone v = true ↔ v = PyVal.none := by
  cases v <;> simp [pyIsNone]

theorem foldl_append_eq_strConcatMap (l : List String) (g : String → String) :
    ∀ init : String, l.foldl (fun acc x => acc ++ g x) init = init ++ strConcatMap l g := by
  induction l with
  | nil => intro init; simp [strConcatMap]
  | cons x xs ih =>
    intro init
    simp only [List.foldl_cons, strConcatMap, ih, String.append_assoc]

/-- C5: For every render_func, if cache_key, cache_type and cache_expire
are all None, `cached_template` calls render_func exactly once and
returns its result, performing no cache lookup or store: the event
trace is exactly one `renderFuncCall` and the value is the callback's
output. -/
theorem cached_template_no_cache_direct (cacheStore : String → PyVal → Option String)
    (template_name renderResult : String) (ns_options : List String)
    (kwargs : PyDict PyVal) :
    cached_template cacheStore template_name renderResult ns_options
      PyVal.none PyVal.none PyVal.none kwargs =
      ([Event.renderFuncCall], renderResult) := rfl

/-- C6: Whenever at least one of cache_key, cache_type or cache_expire
is not None, `cached_template` calls the cache's `get_value` with
cache_type defaulted to 'dbm' when falsy, cache_key defaulted to
'default' when falsy, and an expiretime of None whenever cache_expire
is the string 'never'. -/
theorem cached_template_cache_defaults (cacheStore : String → PyVal → Option String)
    (template_name renderResult : String) (ns_options : List String)
    (cache_key cache_type cache_expire : PyVal) (kwargs : PyDict PyVal)
    (h : ¬(cache_key = PyVal.none ∧ cache_type = PyVal.none ∧ cache_expire = PyVal.none)) :
    ∃ nsv, ((cached_template cacheStore template_name renderResult ns_options
        cache_key cache_type cache_expire kwargs).1).head? =
      some (Event.cacheGetValue nsv
        (if !(pyTruthy cache_key) then PyVal.str "default" else cache_key)
        (if !(pyTruthy cache_type) then PyVal.str "dbm" else cache_type)
        (if pyIsNeverStr cache_expire then PyVal.none else cache_expire)) := by
  have hcond : (!(pyIsNone cache_key) || !(pyIsNone cache_expire) || !(pyIsNone cache_type)) = true := by
    cases hk : pyIsNone cache_key <;> cases he : pyIsNone cache_expire <;>
      cases ht : pyIsNone cache_type <;>
      simp_all [pyIsNone_eq_true_iff]
  refine ⟨ns_options.foldl
    (fun acc nm => acc ++ pyStr ((PyDict.get? kwargs nm).getD PyVal.none))
    template_name, ?_⟩
  unfold cached_template
  rw [if_pos hcond]
  dsimp only
  set nsv := List.foldl
    (fun acc nm => acc ++ pyStr ((PyDict.get? kwargs nm).getD PyVal.none))
    template_name ns_options with hnsv
  set ck := if !(pyTruthy cache_key) then PyVal.str "default" else cache_key with hck
  cases hcs : cacheStore nsv ck <;> rfl

/-- Closed witness for `cached_template_cache_defaults`. -/
theorem cached_template_cache_defaults_witness :
    ∃ nsv, ((cached_template (fun _ _ => Option.none) "tmpl" "out" []
        PyVal.none PyVal.none (PyVal.str "never") []).1).head? =
      some (Event.cacheGetValue nsv (PyVal.str "default") (PyVal.str "dbm") PyVal.none) := by
  have h := cached_template_cache_defaults (fun _ _ => Option.none) "tmpl" "out" []
    PyVal.none PyVal.none (PyVal.str "never") [] (by simp)
  simpa [pyTruthy, pyIsNeverStr] using h

/-- C7: When caching is triggered, `cached_template` builds the cache
namespace by concatenating the template name with the string form of
each value found in the extra keyword arguments for every name listed
in ns_options, in the order the names appear in ns_options. -/
theorem cached_template_namespace_concat (cacheStore : String → PyVal → Option String)
    (template_name renderResult : String) (ns_options : List String)
    (cache_key cache_type cache_expire : PyVal) (kwargs : PyDict PyVal)
    (h : ¬(cache_key = PyVal.none ∧ cache_type = PyVal.none ∧ cache_expire = PyVal.none))
    (hfound : ∀ nm ∈ ns_options, (PyDict.get? kwargs nm).isSome) :
    ∃ k t e, ((cached_template cacheStore template_name renderResult ns_options
        cache_key cache_type cache_expire kwargs).1).head? =
      some (Event.cacheGetValue
        (template_name ++ strConcatMap ns_options
          (fun nm => pyStr ((PyDict.get? kwargs nm).getD PyVal.none)))
        k t e) := by
  have hcond : (!(pyIsNone cache_key) || !(pyIsNone cache_expire) || !(pyIsNone cache_type)) = true := by
    cases hk : pyIsNone cache_key <;> cases he : pyIsNone cache_expire <;>
      cases ht : pyIsNone cache_type <;>
      simp_all [pyIsNone_eq_true_iff]
  refine ⟨if !(pyTruthy cache_key) then PyVal.str "default" else cache_key,
    if !(pyTruthy cache_type) then PyVal.str "dbm" else cache_type,
    if pyIsNeverStr cache_expire then PyVal.none else cache_expire, ?_⟩
  unfold cached_template
  rw [if_pos hcond]
  dsimp only
  rw [foldl_append_eq_strConcatMap]
  set nsv := template_name ++ strConcatMap ns_options
    (fun nm => pyStr ((PyDict.get? kwargs nm).getD PyVal.none)) with hnsv
  set ck := if !(pyTruthy cache_key) then PyVal.str "default" else cache_key with hck
  cases hcs : cacheStore nsv ck <;> rfl

/-- Closed witness for `cached_template_namespace_concat`. -/
theorem cached_template_namespace_concat_witness :
    ∃ k t e, ((cached_template (fun _ _ => Option.none) "tmpl" "out" ["fragment"]
        PyVal.none PyVal.none (PyVal.str "never")
        [("fragment", PyVal.bool true)]).1).head? =
      some (Event.cacheGetValue ("tmpl" ++ strConcatMap ["fragment"]
        (fun nm => pyStr ((PyDict.get? [("fragment", PyVal.bool true)] nm).getD PyVal.none)))
        k t e) := by
  exact cached_template_namespace_concat (fun _ _ => Option.none) "tmpl" "out" ["fragment"]
    PyVal.none PyVal.none (PyVal.str "never") [("fragment", PyVal.bool true)]
    (by simp) (by intro nm hnm; simp at hnm; subst hnm; simp [PyDict.get?])

/-- C9: Every call to `render_response` emits the deprecation warning
first, before anything else and in particular before the inner render's
outcome is consumed, so the warning occurs whether the render succeeds
or raises. -/
theorem render_response_always_warns (renderOutcome : Except PyExc String)
    (kargs : PyDict PyVal) (default_content_type : String) :
    ((render_response renderOutcome kargs default_content_type).1).head? =
      some RREvent.warnDeprecation := by
  cases renderOutcome with
  | error e => rfl
  | ok content => rfl

/-- C10: For every successful call, `render_response` returns the empty
string, not the rendered template: the rendered content is only
assigned to the response object's `content` attribute. -/
theorem render_response_returns_empty_string (content : String) (kargs : PyDict PyVal)
    (default_content_type : String) :
    (render_response (Except.ok content) kargs default_content_type).2 = Except.ok "" ∧
    RREvent.setContent content ∈
      (render_response (Except.ok content) kargs default_content_type).1 := by
  constructor
  · rfl
  · simp [render_response]

/-- C4: `prepare` with an engine name absent from the process-wide
registry raises TemplateEngineMissing and leaves the prepared-engine
table unchanged; `render` with a resolved engine name for which no
prepared entry exists raises an error naming that engine. -/
theorem buffet_unknown_engine_errors (avail : PyDict Factory) (b b' : Buffet)
    (engine_name : String) (template_root : Option String) (aliasArg : Option String)
    (config : PyDict PyVal) (globs : PyDict PyVal)
    (cacheStore : String → PyVal → Option String) (rn : String)
    (template_name : String) (include_pylons_variables : Bool)
    (nspace : Option (PyDict PyVal)) (cache_key cache_expire cache_type : PyVal)
    (options : PyDict PyVal)
    (hp : PyDict.get? avail engine_name = Option.none)
    (hrn : rn ≠ "") (hr : PyDict.get? b'.engines rn = Option.none) :
    Buffet.prepare avail b engine_name template_root aliasArg config =
      (b, some (PyExc.templateEngineMissing
        ("Please install a plugin for \"" ++ engine_name ++ "\" to use its functionality"))) ∧
    Buffet.render b' globs cacheStore (some rn) template_name include_pylons_variables
        nspace cache_key cache_expire cache_type options =
      ([], Except.error (PyExc.exception ("No engine with that name configured: " ++ rn))) := by
  have hres : resolveEngineName b' (some rn) = some rn := by
    simp [resolveEngineName, strOptTruthy, hrn]
  constructor
  · simp only [Buffet.prepare, hp]
  · simp only [Buffet.render, hres, hr]

/-- Closed witness for `buffet_unknown_engine_errors`. -/
theorem buffet_unknown_engine_errors_witness :
    Buffet.prepare [] ⟨Option.none, Option.none, [], []⟩ "mako" Option.none Option.none [] =
      (⟨Option.none, Option.none, [], []⟩, some (PyExc.templateEngineMissing
        ("Please install a plugin for \"" ++ "mako" ++ "\" to use its functionality"))) ∧
    Buffet.render ⟨Option.none, Option.none, [], []⟩ [] (fun _ _ => Option.none)
        (some "mako") "t.html" true Option.none PyVal.none PyVal.none PyVal.none [] =
      ([], Except.error (PyExc.exception ("No engine with that name configured: " ++ "mako"))) := by
  exact buffet_unknown_engine_errors [] ⟨Option.none, Option.none, [], []⟩
    ⟨Option.none, Option.none, [], []⟩ "mako" Option.none Option.none [] []
    (fun _ _ => Option.none) "mako" "t.html" true Option.none
    PyVal.none PyVal.none PyVal.none [] rfl (by decide) rfl

/-- C3: For every non-legacy prepared engine, `render` with
include_pylons_variables=False and namespace=None raises the
"namespace required" BuffetError, and the event trace is empty: the
engine is not invoked. -/
theorem buffet_render_namespace_required (b : Buffet) (globs : PyDict PyVal)
    (cacheStore : String → PyVal → Option String) (n : String) (cfg : PreparedEntry)
    (template_name : String) (cache_key cache_expire cache_type : PyVal)
    (options : PyDict PyVal)
    (hn : n ≠ "") (hleg : n ≠ "pylonsmyghty")
    (he : PyDict.get? b.engines n = some cfg) :
    Buffet.render b globs cacheStore (some n) template_name false Option.none
        cache_key cache_expire cache_type options =
      ([], Except.error (PyExc.buffetError
        "You must specify ``namespace`` when ``include_pylons_variables`` is False")) := by
  have hres : resolveEngineName b (some n) = some n := by
    simp [resolveEngineName, strOptTruthy, hn]
  simp only [Buffet.render, hres, he, buffetNamespaceOptions, hleg, if_false,
    if_neg hleg]
  rfl

/-- Closed witness for `buffet_render_namespace_required`. -/
theorem buffet_render_namespace_required_witness :
    Buffet.render
        ⟨Option.none, Option.none, [],
          [("mako", ⟨⟨fun _ _ _ => "out", []⟩, Option.none⟩)]⟩
        [] (fun _ _ => Option.none) (some "mako") "t.html" false Option.none
        PyVal.none PyVal.none PyVal.none [] =
      ([], Except.error (PyExc.buffetError
        "You must specify ``namespace`` when ``include_pylons_variables`` is False")) := by
  exact buffet_render_namespace_required
    ⟨Option.none, Option.none, [], [("mako", ⟨⟨fun _ _ _ => "out", []⟩, Option.none⟩)]⟩
    [] (fun _ _ => Option.none) "mako" ⟨⟨fun _ _ _ => "out", []⟩, Option.none⟩
    "t.html" PyVal.none PyVal.none PyVal.none []
    (by decide) (by decide) rfl

/-- C2: For every explicit namespace passed to `render` with
include_pylons_variables=True on a non-legacy engine, the namespace
handed to the engine is the Context Snapshot updated by the explicit
namespace, so for every key present in both, the explicit namespace's
value wins. -/
theorem buffet_render_namespace_override (b : Buffet) (globs ns : PyDict PyVal)
    (cacheStore : String → PyVal → Option String) (n : String) (cfg : PreparedEntry)
    (template_name : String) (options : PyDict PyVal)
    (hn : n ≠ "") (hleg : n ≠ "pylonsmyghty")
    (he : PyDict.get? b.engines n = some cfg)
    (hnd : PyDict.NodupKeys ns) :
    (∃ fp opts, Buffet.render b globs cacheStore (some n) template_name true (some ns)
        PyVal.none PyVal.none PyVal.none options =
      ([Event.engineRender (PyDict.update globs ns) fp opts],
       Except.ok (cfg.engine.render (PyDict.update globs ns) fp opts))) ∧
    (∀ k v, PyDict.get? ns k = some v →
      PyDict.get? (PyDict.update globs ns) k = some v) := by
  have hres : resolveEngineName b (some n) = some n := by
    simp [resolveEngineName, strOptTruthy, hn]
  constructor
  · refine ⟨buffetFullPath n template_name cfg.root, formatDel options, ?_⟩
    simp only [Buffet.render, hres, he, buffetNamespaceOptions, if_neg hleg,
      pyIsNone, Bool.not_true, Bool.or_self, Bool.false_or, Bool.or_false, if_true]
    rfl
  · intro k v hk
    exact PyDict.get?_update_of_get?_eq_some ns globs k v hnd hk

/-- Closed witness for `buffet_render_namespace_override`. -/
theorem buffet_render_namespace_override_witness :
    (∃ fp opts, Buffet.render
        ⟨Option.none, Option.none, [],
          [("mako", ⟨⟨fun _ _ _ => "out", []⟩, Option.none⟩)]⟩
        [("c", PyVal.str "snapshot")]
        (fun _ _ => Option.none) (some "mako") "t.html" true
        (some [("c", PyVal.str "explicit")])
        PyVal.none PyVal.none PyVal.none [] =
      ([Event.engineRender
          (PyDict.update [("c", PyVal.str "snapshot")] [("c", PyVal.str "explicit")]) fp opts],
       Except.ok (EngineInst.render ⟨fun _ _ _ => "out", []⟩
          (PyDict.update [("c", PyVal.str "snapshot")] [("c", PyVal.str "explicit")]) fp opts))) ∧
    (∀ k v, PyDict.get? [("c", PyVal.str "explicit")] k = some v →
      PyDict.get? (PyDict.update [("c", PyVal.str "snapshot")] [("c", PyVal.str "explicit")]) k
        = some v) := by
  exact buffet_render_namespace_override
    ⟨Option.none, Option.none, [], [("mako", ⟨⟨fun _ _ _ => "out", []⟩, Option.none⟩)]⟩
    [("c", PyVal.str "snapshot")] [("c", PyVal.str "explicit")]
    (fun _ _ => Option.none) "mako" ⟨⟨fun _ _ _ => "out", []⟩, Option.none⟩
    "t.html" [] (by decide) (by decide) rfl (by decide)

theorem moveGlobals_no_global_args_key (keys : List String) (v : PyVal)
    (h : "_global_args" ∉ keys) :
    moveGlobals keys [("_global_args", v)] = Except.ok [("_global_args", v)] := by
  induction keys with
  | nil => rfl
  | cons key rest ih =>
    simp only [List.mem_cons, not_or] at h
    have hk : ¬("_global_args" = key) := h.1
    have hget : PyDict.get? [("_global_args", v)] key = Option.none := by
      simp [PyDict.get?, hk]
    simp only [moveGlobals, hget]
    exact ih h.2

/-- C1: For every engine name prepared in the facade and every template
name, calling `render` with cache_key, cache_type and cache_expire all
None invokes the prepared engine's render method exactly once (the
trace is a single `engineRender` event) and returns its result
unchanged. -/
theorem buffet_render_no_cache_once (b : Buffet) (globs : PyDict PyVal)
    (cacheStore : String → PyVal → Option String) (n : String) (cfg : PreparedEntry)
    (template_name : String) (options : PyDict PyVal)
    (hn : n ≠ "") (he : PyDict.get? b.engines n = some cfg)
    (hga : "_global_args" ∉ cfg.engine.globalArgKeys) :
    ∃ ns fp opts,
      Buffet.render b globs cacheStore (some n) template_name true Option.none
        PyVal.none PyVal.none PyVal.none options =
      ([Event.engineRender ns fp opts],
       Except.ok (cfg.engine.render ns fp opts)) := by
  have hres : resolveEngineName b (some n) = some n := by
    simp [resolveEngineName, strOptTruthy, hn]
  by_cases hleg : n = "pylonsmyghty"
  · subst hleg
    have hmg : moveGlobals cfg.engine.globalArgKeys [("_global_args", PyVal.dict globs)] =
        Except.ok [("_global_args", PyVal.dict globs)] :=
      moveGlobals_no_global_args_key cfg.engine.globalArgKeys (PyVal.dict globs) hga
    have hstep : buffetNamespaceOptions "pylonsmyghty" cfg globs template_name true
        Option.none options =
        (match moveGlobals cfg.engine.globalArgKeys [("_global_args", PyVal.dict globs)] with
         | .error e => .error e
         | .ok ns3 => Except.ok (ns3, options, template_name)) := rfl
    have hB : buffetNamespaceOptions "pylonsmyghty" cfg globs template_name true
        Option.none options =
        Except.ok ([("_global_args", PyVal.dict globs)], options, template_name) := by
      rw [hstep, hmg]
    refine ⟨[("_global_args", PyVal.dict globs)], template_name, formatDel options, ?_⟩
    simp only [Buffet.render, hres, he, hB]
    rfl
  · refine ⟨globs, buffetFullPath n template_name cfg.root, formatDel options, ?_⟩
    simp only [Buffet.render, hres, he, buffetNamespaceOptions, if_neg hleg]
    rfl

/-- Closed witness for `buffet_render_no_cache_once`. -/
theorem buffet_render_no_cache_once_witness :
    ∃ ns fp opts,
      Buffet.render
        ⟨Option.none, Option.none, [],
          [("genshi", ⟨⟨fun _ _ _ => "rendered", []⟩, Option.none⟩)]⟩
        [] (fun _ _ => Option.none) (some "genshi") "t.html" true Option.none
        PyVal.none PyVal.none PyVal.none [] =
      ([Event.engineRender ns fp opts], Except.ok "rendered") := by
  exact buffet_render_no_cache_once
    ⟨Option.none, Option.none, [], [("genshi", ⟨⟨fun _ _ _ => "rendered", []⟩, Option.none⟩)]⟩
    [] (fun _ _ => Option.none) "genshi" ⟨⟨fun _ _ _ => "rendered", []⟩, Option.none⟩
    "t.html" [] (by decide) rfl (by simp)

theorem movePairs_snd_get?_not_mem (keys : List String) :
    ∀ (ns opts : PyDict PyVal) (k : String), k ∉ keys →
      PyDict.get? (movePairs keys ns opts).2 k = PyDict.get? opts k := by
  induction keys with
  | nil => intro ns opts k _; rfl
  | cons key rest ih =>
    intro ns opts k hk
    simp only [List.mem_cons, not_or] at hk
    cases hg : PyDict.get? ns key with
    | none =>
      have hstep : movePairs (key :: rest) ns opts = movePairs rest ns opts := by
        simp [movePairs, hg]
      rw [hstep]
      exact ih ns opts k hk.2
    | some v =>
      have hstep : movePairs (key :: rest) ns opts =
          movePairs rest (PyDict.erase ns key) (PyDict.set opts key v) := by
        simp [movePairs, hg]
      rw [hstep, ih _ _ k hk.2, PyDict.get?_set_ne opts key k v hk.1]

theorem formatDel_get?_none (opts : PyDict PyVal)
    (h : PyDict.get? opts "format" = some PyVal.none) :
    PyDict.get? (formatDel opts) "format" = Option.none := by
  unfold formatDel
  rw [h]
  exact PyDict.get?_erase_self opts "format"

theorem formatDel_get?_not_none (opts : PyDict PyVal) (v : PyVal)
    (hv : v ≠ PyVal.none) (h : PyDict.get? opts "format" = some v) :
    PyDict.get? (formatDel opts) "format" = some v := by
  unfold formatDel
  rw [h]
  cases v with
  | none => exact absurd rfl hv
  | str s => exact h
  | bool b => exact h
  | int n => exact h
  | dict d => exact h

theorem formatDel_forwarding (options opts0 : PyDict PyVal)
    (hfmt : PyDict.get? opts0 "format" = PyDict.get? options "format") :
    (PyDict.get? options "format" = some PyVal.none →
      PyDict.get? (formatDel opts0) "format" = Option.none) ∧
    (∀ v, v ≠ PyVal.none → PyDict.get? options "format" = some v →
      PyDict.get? (formatDel opts0) "format" = some v) := by
  constructor
  · intro hfn
    exact formatDel_get?_none opts0 (hfmt.trans hfn)
  · intro v hv hfv
    exact formatDel_get?_not_none opts0 v hv (hfmt.trans hfv)

/-- The options dict handed on by the branch computation binds "format"
exactly as the caller's options dict did (the Myghty branch only moves
the three reserved keys into the options). -/
theorem buffetNamespaceOptions_opts_format (engine_name : String) (cfg : PreparedEntry)
    (globs : PyDict PyVal) (template_name : String) (inc : Bool)
    (nspace : Option (PyDict PyVal)) (options : PyDict PyVal)
    (ns opts : PyDict PyVal) (fp : String)
    (h : buffetNamespaceOptions engine_name cfg globs template_name inc nspace options =
      Except.ok (ns, opts, fp)) :
    PyDict.get? opts "format" = PyDict.get? options "format" := by
  unfold buffetNamespaceOptions at h
  by_cases hleg : engine_name = "pylonsmyghty"
  · rw [if_pos hleg] at h
    dsimp only at h
    split at h
    · exact absurd h (by simp)
    · simp only [Except.ok.injEq, Prod.mk.injEq] at h
      obtain ⟨h1, h2, h3⟩ := h
      rw [← h2]
      exact movePairs_snd_get?_not_mem myghtyReserved _ options "format" (by decide)
  · rw [if_neg hleg] at h
    cases nspace with
    | none =>
      by_cases hinc : inc = true
      · rw [hinc] at h
        simp only [if_true] at h
        simp only [Except.ok.injEq, Prod.mk.injEq] at h
        rw [← h.2.1]
      · have hinc' : inc = false := by
          cases inc
          · rfl
          · exact absurd rfl hinc
        rw [hinc'] at h
        exact absurd h (by simp)
    | some ns0 =>
      simp only [Except.ok.injEq, Prod.mk.injEq] at h
      rw [← h.2.1]

/-- C8: For every call to `Buffet.render`, whenever the engine's render
method is invoked, the options it receives bind no "format" key if the
caller's options bound "format" to None, and bind "format" to the same
non-None value (such as the string "xhtml") the caller's options bound
it to otherwise. -/
theorem buffet_render_format_forwarding (b : Buffet) (globs : PyDict PyVal)
    (cacheStore : String → PyVal → Option String) (engine_name : Option String)
    (template_name : String) (include_pylons_variables : Bool)
    (nspace : Option (PyDict PyVal)) (cache_key cache_expire cache_type : PyVal)
    (options ns opts : PyDict PyVal) (fp : String)
    (hmem : Event.engineRender ns fp opts ∈
      (Buffet.render b globs cacheStore engine_name template_name
        include_pylons_variables nspace cache_key cache_expire cache_type options).1) :
    (PyDict.get? options "format" = some PyVal.none →
      PyDict.get? opts "format" = Option.none) ∧
    (∀ v, v ≠ PyVal.none → PyDict.get? options "format" = some v →
      PyDict.get? opts "format" = some v) := by
  unfold Buffet.render at hmem
  cases hres : resolveEngineName b engine_name with
  | none => rw [hres] at hmem; simp at hmem
  | some n =>
    rw [hres] at hmem
    dsimp only at hmem
    cases hE : PyDict.get? b.engines n with
    | none => rw [hE] at hmem; simp at hmem
    | some cfg =>
      rw [hE] at hmem
      dsimp only at hmem
      cases hB : buffetNamespaceOptions n cfg globs template_name
          include_pylons_variables nspace options with
      | error e => rw [hB] at hmem; simp at hmem
      | ok res =>
        rw [hB] at hmem
        obtain ⟨ns0, opts0, fp0⟩ := res
        have hfmt : PyDict.get? opts0 "format" = PyDict.get? options "format" :=
          buffetNamespaceOptions_opts_format n cfg globs template_name
            include_pylons_variables nspace options ns0 opts0 fp0 hB
        dsimp only at hmem
        split at hmem
        · split at hmem
          · simp at hmem
          · simp only [List.mem_cons, List.mem_singleton, List.not_mem_nil,
              or_false] at hmem
            rcases hmem with hmem | hmem
            · exact absurd hmem (by simp)
            · simp only [Event.engineRender.injEq] at hmem
              rw [hmem.2.2]
              exact formatDel_forwarding options opts0 hfmt
        · simp only [List.mem_singleton] at hmem
          simp only [Event.engineRender.injEq] at hmem
          rw [hmem.2.2]
          exact formatDel_forwarding options opts0 hfmt

/-- Closed witness for `buffet_render_format_forwarding`. -/
theorem buffet_render_format_forwarding_witness :
    (PyDict.get? [("format", PyVal.str "xhtml")] "format" = some PyVal.none →
      PyDict.get? [("format", PyVal.str "xhtml")] "format" = Option.none) ∧
    (∀ v, v ≠ PyVal.none →
      PyDict.get? [("format", PyVal.str "xhtml")] "format" = some v →
      PyDict.get? [("format", PyVal.str "xhtml")] "format" = some v) := by
  exact buffet_render_format_forwarding
    ⟨Option.none, Option.none, [], [("eng", ⟨⟨fun _ _ _ => "out", []⟩, Option.none⟩)]⟩
    [] (fun _ _ => Option.none) (some "eng") "t" true Option.none
    PyVal.none PyVal.none PyVal.none [("format", PyVal.str "xhtml")]
    [] [("format", PyVal.str "xhtml")] "t"
    (by
      have hr : (Buffet.render
          ⟨Option.none, Option.none, [],
            [("eng", ⟨⟨fun _ _ _ => "out", []⟩, Option.none⟩)]⟩
          [] (fun _ _ => Option.none) (some "eng") "t" true Option.none
          PyVal.none PyVal.none PyVal.none [("format", PyVal.str "xhtml")]).1 =
          [Event.engineRender [] "t" [("format", PyVal.str "xhtml")]] := rfl
      rw [hr]
      exact List.mem_singleton.mpr rfl)
